import Mathlib

/-!
Verification of the devbackup tree-replicator (`src/devbackup/devbackup.py`)
against its specification.

The filesystem is modelled as a tree of nodes; a directory's entries are an
association list from entry name to node (real directories are unordered, so
list order is representation only).  The destination ("backup root") is the
mutable state: `St = Option FSNode` is the node currently at the output path
(`none` when the path does not exist).  Paths are lists of name components
relative to the backup root; configuration names are atomic components.
Python errors are explicit `PyError` values; every operation returns the
state reached so far together with its outcome, since Python mutations
performed before an exception persist.
-/

/-- A filesystem node: a file with abstract content (standing for bytes and
metadata together, since `copy2` transfers both), or a directory with a list
of named children. -/
inductive FSNode where
  | file (content : String)
  | dir (children : List (String × FSNode))

/-- Python exception classes that the program can raise. -/
inductive PyError where
  | keyError
  | fileExistsError
  | fileNotFoundError
  | notADirectoryError
  | isADirectoryError
deriving DecidableEq, Repr

/-- The destination state: the node at the backup-root path, if any. -/
def St : Type := Option FSNode

/-- First binding of a name in a directory's entry list. -/
def lookupChild : List (String × FSNode) → String → Option FSNode
  | [], _ => none
  | (k, v) :: rest, n => if k = n then some v else lookupChild rest n

/-- Resolve a path relative to the state's root node. -/
def lookupPath : St → List String → Option FSNode
  | st, [] => st
  | some (.dir cs), n :: rest => lookupPath (lookupChild cs n) rest
  | _, _ :: _ => none

/-- Replace the first binding of `n` (or append one): a directory write. -/
def setChild : List (String × FSNode) → String → FSNode → List (String × FSNode)
  | [], n, v => [(n, v)]
  | (k, w) :: rest, n, v => if k = n then (n, v) :: rest else (k, w) :: setChild rest n v

/-- Remove every binding of `n`: directory entry deletion. -/
def delChild (cs : List (String × FSNode)) (n : String) : List (String × FSNode) :=
  cs.filter (fun e => !(e.1 == n))

/-- Delete the node at a non-empty path inside a directory entry list
(`shutil.rmtree`'s effect below the root). -/
def delPath : List (String × FSNode) → List String → List (String × FSNode)
  | cs, [] => cs
  | cs, [n] => delChild cs n
  | cs, n :: rest =>
    match lookupChild cs n with
    | some (.dir cs') => setChild cs n (.dir (delPath cs' rest))
    | _ => cs

/-- `shutil.rmtree(path)`: delete the directory at `path`; `FileNotFoundError`
if absent, `NotADirectoryError` if it is a file.  On error the state is
unchanged. -/
def rmtree (st : St) (p : List String) : St × Except PyError Unit :=
  match lookupPath st p with
  | none => (st, .error .fileNotFoundError)
  | some (.file _) => (st, .error .notADirectoryError)
  | some (.dir _) =>
    match p, st with
    | [], _ => (none, .ok ())
    | _ :: _, some (.dir cs) => (some (.dir (delPath cs p)), .ok ())
    | _ :: _, _ => (st, .error .fileNotFoundError)

/-- Place node `v` at path `p`, creating missing ancestor directories
(`os.makedirs` followed by filling in content): fails with
`FileExistsError` if `p` already exists and `NotADirectoryError` if a file
blocks the path.  Used for `Path.mkdir(parents=True)` (with `v` an empty
directory) and for `shutil.copytree`'s destination creation. -/
def placeAux : Option FSNode → List String → FSNode → Except PyError FSNode
  | none, [], v => .ok v
  | some _, [], _ => .error .fileExistsError
  | none, n :: rest, v =>
    match placeAux none rest v with
    | .ok c => .ok (.dir [(n, c)])
    | .error e => .error e
  | some (.dir cs), n :: rest, v =>
    match placeAux (lookupChild cs n) rest v with
    | .ok c => .ok (.dir (setChild cs n c))
    | .error e => .error e
  | some (.file _), _ :: _, _ => .error .notADirectoryError

/-- `make_dir(path)` (devbackup.py lines 46-56): create `path` if absent,
otherwise `rmtree` it and recreate it empty.  The spec calls this operation
`ensure_clean_directory`. -/
def make_dir (st : St) (p : List String) : St × Except PyError Unit :=
  if (lookupPath st p).isSome then
    match rmtree st p with
    | (st1, .ok _) =>
      match placeAux st1 p (.dir []) with
      | .ok n => (some n, .ok ())
      | .error e => (st1, .error e)
    | (st1, .error e) => (st1, .error e)
  else
    match placeAux st p (.dir []) with
    | .ok n => (some n, .ok ())
    | .error e => (st, .error e)

/-- Write a file node at a non-empty path whose parent chain already exists
(the destination side of `shutil.copy2`): overwrites a file, fails on a
directory target or a missing/non-directory parent. -/
def writeInto : List (String × FSNode) → List String → FSNode → Except PyError (List (String × FSNode))
  | _, [], _ => .error .isADirectoryError
  | cs, [n], v =>
    match lookupChild cs n with
    | some (.dir _) => .error .isADirectoryError
    | _ => .ok (setChild cs n v)
  | cs, n :: rest, v =>
    match lookupChild cs n with
    | some (.dir cs') =>
      match writeInto cs' rest v with
      | .ok cs'' => .ok (setChild cs n (.dir cs''))
      | .error e => .error e
    | some (.file _) => .error .notADirectoryError
    | none => .error .fileNotFoundError

/-- `shutil.copy2(src, dst)`: copy file bytes and metadata.  The source is
opened first (`FileNotFoundError` / `IsADirectoryError`), then the
destination is written. -/
def copy2 (src : Option FSNode) (st : St) (dst : List String) : St × Except PyError Unit :=
  match src with
  | none => (st, .error .fileNotFoundError)
  | some (.dir _) => (st, .error .isADirectoryError)
  | some (.file c) =>
    match st, dst with
    | some (.dir cs), _ :: _ =>
      match writeInto cs dst (.file c) with
      | .ok cs' => (some (.dir cs'), .ok ())
      | .error e => (some (.dir cs), .error e)
    | _, _ => (st, .error .fileNotFoundError)

/-- `copy_file(src, dst, exclude)` (lines 59-69): clean the destination's
parent directory, then copy unless the source's basename (`srcName`, which
includes the leading dot) is in `exclude`. -/
def copy_file (src : Option FSNode) (srcName : String) (st : St) (dst : List String)
    (exclude : List String) : St × Except PyError Unit :=
  match make_dir st dst.dropLast with
  | (st1, .error e) => (st1, .error e)
  | (st1, .ok _) =>
    if srcName ∈ exclude then (st1, .ok ())
    else copy2 src st1 dst

/-- Membership of a character in a glob bracket-class body (CPython
`fnmatch.translate` semantics: `x-y` is a range, an empty range matches
nothing, a leading or trailing hyphen is literal). -/
def classMatch : List Char → Char → Bool
  | [], _ => false
  | x :: '-' :: y :: rest, c =>
    (decide (x.toNat ≤ c.toNat) && decide (c.toNat ≤ y.toNat)) || classMatch rest c
  | x :: rest, c => (x == c) || classMatch rest c

/-- Split a pattern suffix at the first `]`, returning the part before it and
the part after it. -/
def splitAtRBrack : List Char → Option (List Char × List Char)
  | [] => none
  | c :: rest =>
    if c = ']' then some ([], rest)
    else
      match splitAtRBrack rest with
      | some (body, r) => some (c :: body, r)
      | none => none

/-- Bracket-class body starting right after `[` (or after `[!`): a leading
`]` is literal. -/
def clsBody (cs : List Char) : Option (List Char × List Char) :=
  match cs with
  | c :: rest1 =>
    if c = ']' then
      match splitAtRBrack rest1 with
      | some (body, r) => some (']' :: body, r)
      | none => none
    else splitAtRBrack cs
  | [] => none

/-- Parse a bracket class after `[`: optional `!` negation, then the body up
to the closing `]`; `none` when there is no closing bracket (the `[` is then
a literal character). -/
def clsExtract (cs : List Char) : Option (Bool × List Char × List Char) :=
  if cs.head? = some '!' then (clsBody (cs.drop 1)).map (fun br => (true, br.1, br.2))
  else (clsBody cs).map (fun br => (false, br.1, br.2))

/-- Full-string glob matching as produced by CPython `fnmatch.translate`:
`*` matches any sequence, `?` any single character, `[...]` and `[!...]` are
character classes, and an unmatched `[` is a literal. -/
def globMatch : List Char → List Char → Bool
  | [], s => s.isEmpty
  | p :: ps, s =>
    if p = '*' then
      globMatch ps s ||
        (match s with
         | [] => false
         | _ :: s' => globMatch (p :: ps) s')
    else if p = '?' then
      match s with
      | [] => false
      | _ :: s' => globMatch ps s'
    else if p = '[' then
      match hcls : clsExtract ps with
      | some nbr =>
        match s with
        | [] => false
        | c :: s' => (nbr.1 != classMatch nbr.2.1 c) && globMatch nbr.2.2 s'
      | none =>
        match s with
        | [] => false
        | c :: s' => (c == '[') && globMatch ps s'
    else
      match s with
      | [] => false
      | c :: s' => (p == c) && globMatch ps s'
termination_by ps s => (ps.length, s.length)
decreasing_by
  · apply Prod.Lex.left; simp
  · apply Prod.Lex.right; simp
  · apply Prod.Lex.left; simp
  · apply Prod.Lex.left
    have hsplit : ∀ cs body r, splitAtRBrack cs = some (body, r) → r.length < cs.length := by
      intro cs
      induction cs with
      | nil => intro body r hbr; simp [splitAtRBrack] at hbr
      | cons c rest ihs =>
        intro body r hbr
        rw [splitAtRBrack] at hbr
        by_cases hc : c = ']'
        · rw [if_pos hc] at hbr
          simp only [Option.some.injEq, Prod.mk.injEq] at hbr
          rw [← hbr.2]
          simp
        · rw [if_neg hc] at hbr
          cases hrec : splitAtRBrack rest with
          | none => rw [hrec] at hbr; simp at hbr
          | some pr =>
            obtain ⟨body2, r2⟩ := pr
            rw [hrec] at hbr
            simp only [Option.some.injEq, Prod.mk.injEq] at hbr
            have hlt := ihs body2 r2 hrec
            rw [← hbr.2]
            simp only [List.length_cons]
            omega
    have hbody : ∀ cs body r, clsBody cs = some (body, r) → r.length < cs.length + 1 := by
      intro cs body r hbr
      cases cs with
      | nil => simp [clsBody] at hbr
      | cons c rest1 =>
        rw [clsBody] at hbr
        by_cases hc : c = ']'
        · rw [if_pos hc] at hbr
          cases hrec : splitAtRBrack rest1 with
          | none => rw [hrec] at hbr; simp at hbr
          | some pr =>
            obtain ⟨body2, r2⟩ := pr
            rw [hrec] at hbr
            simp only [Option.some.injEq, Prod.mk.injEq] at hbr
            have hlt := hsplit rest1 body2 r2 hrec
            rw [← hbr.2]
            simp only [List.length_cons]
            omega
        · rw [if_neg hc] at hbr
          have hlt := hsplit (c :: rest1) body r hbr
          omega
    have hlen : nbr.2.2.length < ps.length + 1 := by
      rw [clsExtract] at hcls
      by_cases hh : ps.head? = some '!'
      · rw [if_pos hh] at hcls
        cases hb : clsBody (ps.drop 1) with
        | none => rw [hb] at hcls; exact absurd hcls (by simp)
        | some br =>
          rw [hb] at hcls
          simp only [Option.map_some', Option.some.injEq] at hcls
          have hlt := hbody (ps.drop 1) br.1 br.2 (by rw [hb])
          rw [← hcls]
          simp only [List.length_drop] at hlt ⊢
          have hps : ps ≠ [] := by intro hnil; rw [hnil] at hh; simp at hh
          have hge : ps.length ≥ 1 := by
            cases ps with
            | nil => simp at hps
            | cons a b => simp
          omega
      · rw [if_neg hh] at hcls
        cases hb : clsBody ps with
        | none => rw [hb] at hcls; exact absurd hcls (by simp)
        | some br =>
          rw [hb] at hcls
          simp only [Option.map_some', Option.some.injEq] at hcls
          have hlt := hbody ps br.1 br.2 (by rw [hb])
          rw [← hcls]
          exact hlt
    simpa using hlen
  · apply Prod.Lex.left; simp
  · apply Prod.Lex.left; simp

/-- `fnmatch.fnmatch(name, pat)` on POSIX, where `os.path.normcase` is the
identity. -/
def fnmatch (pat name : String) : Bool := globMatch pat.toList name.toList

/-- `shutil.ignore_patterns(*pats)`: an entry name is ignored when any of the
patterns fnmatch-es it. -/
def ignoreMatches (pats : List String) (name : String) : Bool :=
  pats.any (fun p => fnmatch p name)

/-- The subtree replicated by `shutil.copytree(src, dst,
ignore=ignore_patterns(*pats))`: at every directory level, entries whose
name matches one of the patterns are dropped. -/
def filterChildren (pats : List String) : List (String × FSNode) → List (String × FSNode)
  | [] => []
  | (n, .file c) :: rest =>
    if ignoreMatches pats n then filterChildren pats rest
    else (n, .file c) :: filterChildren pats rest
  | (n, .dir cs) :: rest =>
    if ignoreMatches pats n then filterChildren pats rest
    else (n, .dir (filterChildren pats cs)) :: filterChildren pats rest

/-- `shutil.copytree(src, dst, ignore=ignore_patterns(*pats),
copy_function=copy2)`: the source directory is scanned first
(`FileNotFoundError` when absent, `NotADirectoryError` when it is a file),
then the destination is created — `FileExistsError` when it already exists —
and the filtered source tree is replicated into it. -/
def copytree (src : Option FSNode) (st : St) (dst : List String) (pats : List String) :
    St × Except PyError Unit :=
  match src with
  | none => (st, .error .fileNotFoundError)
  | some (.file _) => (st, .error .notADirectoryError)
  | some (.dir scs) =>
    match placeAux st dst (.dir (filterChildren pats scs)) with
    | .ok n => (some n, .ok ())
    | .error e => (st, .error e)

/-- `copy_dir(src, dst, exclude)` (lines 72-81): skip when the source's own
basename (`srcName`, which includes the leading dot) is exactly listed in
`exclude`, otherwise `copytree` with `ignore_patterns(*exclude)`. -/
def copy_dir (src : Option FSNode) (srcName : String) (st : St) (dst : List String)
    (exclude : List String) : St × Except PyError Unit :=
  if srcName ∈ exclude then (st, .ok ())
  else copytree src st dst exclude

/-- The configuration dictionary: a field is `none` when the key is absent
from the loaded document, in which case `config[key]` raises `KeyError`. -/
structure Config where
  dotfiles : Option (List String)
  dotfolders : Option (List String)
  exclude : Option (List String)

/-- The dotfiles loop of `backup` (lines 87-91).  For each `item`:
`src = Path.home()/("." + item)` and `dst = path/item`, so `dst.parent` is
the backup root `[]`; run `make_dir(dst.parent)`, then evaluate
`config["exclude"]` (a missing key raises `KeyError` here, after the
`make_dir`), then call `copy_file`.  `home` is the home directory's entry
list. -/
def dotfilesLoop (home : List (String × FSNode)) (excl : Option (List String)) :
    List String → St → St × Except PyError Unit
  | [], st => (st, .ok ())
  | item :: rest, st =>
    match make_dir st [] with
    | (st1, .error e) => (st1, .error e)
    | (st1, .ok _) =>
      match excl with
      | none => (st1, .error .keyError)
      | some ex =>
        match copy_file (lookupChild home ("." ++ item)) ("." ++ item) st1 [item] ex with
        | (st2, .ok _) => dotfilesLoop home excl rest st2
        | (st2, .error e) => (st2, .error e)

/-- The dotfolders loop of `backup` (lines 92-96): for each `item`, run
`make_dir(dst)` on the destination itself, then evaluate `config["exclude"]`
and call `copy_dir`. -/
def dotfoldersLoop (home : List (String × FSNode)) (excl : Option (List String)) :
    List String → St → St × Except PyError Unit
  | [], st => (st, .ok ())
  | item :: rest, st =>
    match make_dir st [item] with
    | (st1, .error e) => (st1, .error e)
    | (st1, .ok _) =>
      match excl with
      | none => (st1, .error .keyError)
      | some ex =>
        match copy_dir (lookupChild home ("." ++ item)) ("." ++ item) st1 [item] ex with
        | (st2, .ok _) => dotfoldersLoop home excl rest st2
        | (st2, .error e) => (st2, .error e)

/-- The body of `backup`'s `try` block (lines 86-96): `config["dotfiles"]`
is evaluated once to start the first loop, `config["dotfolders"]` once to
start the second. -/
def backupBody (home : List (String × FSNode)) (cfg : Config) (st : St) :
    St × Except PyError Unit :=
  match cfg.dotfiles with
  | none => (st, .error .keyError)
  | some fs =>
    match dotfilesLoop home cfg.exclude fs st with
    | (st1, .error e) => (st1, .error e)
    | (st1, .ok _) =>
      match cfg.dotfolders with
      | none => (st1, .error .keyError)
      | some ds => dotfoldersLoop home cfg.exclude ds st1

/-- `backup(path, config)` (lines 84-98): run the body and swallow exactly
`KeyError` (`except KeyError: pass`); every other exception propagates, and
mutations made before it remain. -/
def backup (home : List (String × FSNode)) (cfg : Config) (st : St) :
    St × Except PyError Unit :=
  match backupBody home cfg st with
  | (st1, .error .keyError) => (st1, .ok ())
  | r => r

/-- The inline dotfile copy loop of `main` (lines 180-186): like `backup`'s
dotfiles loop but without the extra `make_dir(dst.parent)` before each
`copy_file` (the `config["exclude"]` argument is still evaluated first). -/
def mainDotfilesLoop (home : List (String × FSNode)) (excl : Option (List String)) :
    List String → St → St × Except PyError Unit
  | [], st => (st, .ok ())
  | item :: rest, st =>
    match excl with
    | none => (st, .error .keyError)
    | some ex =>
      match copy_file (lookupChild home ("." ++ item)) ("." ++ item) st [item] ex with
      | (st1, .ok _) => mainDotfilesLoop home excl rest st1
      | (st1, .error e) => (st1, .error e)

/-- The inline dotfolder copy loop of `main` (lines 189-195): like `backup`'s
dotfolders loop but without `make_dir(dst)` before each `copy_dir`. -/
def mainDotfoldersLoop (home : List (String × FSNode)) (excl : Option (List String)) :
    List String → St → St × Except PyError Unit
  | [], st => (st, .ok ())
  | item :: rest, st =>
    match excl with
    | none => (st, .error .keyError)
    | some ex =>
      match copy_dir (lookupChild home ("." ++ item)) ("." ++ item) st [item] ex with
      | (st1, .ok _) => mainDotfoldersLoop home excl rest st1
      | (st1, .error e) => (st1, .error e)

/-- The two inline copy loops of `main` (lines 179-195), run over the output
directory.  `main` has no `except KeyError` handler, so a missing key
propagates. -/
def mainLoops (home : List (String × FSNode)) (cfg : Config) (st : St) :
    St × Except PyError Unit :=
  match cfg.dotfiles with
  | none => (st, .error .keyError)
  | some fs =>
    match mainDotfilesLoop home cfg.exclude fs st with
    | (st1, .error e) => (st1, .error e)
    | (st1, .ok _) =>
      match cfg.dotfolders with
      | none => (st1, .error .keyError)
      | some ds => mainDotfoldersLoop home cfg.exclude ds st1

/-- The text written to `conda_backups/<env>.yml` from the raw captured
`conda env export` output (line 218): split on newlines, drop the last two
lines, rejoin. -/
def condaYmlText (raw : String) : String :=
  String.intercalate "\n" (raw.splitOn "\n").dropLast.dropLast

/-- The destination-root states from which `make_dir` cannot fail: absent, or
an existing directory. -/
def rootDirOr (st : St) : Prop := st = none ∨ ∃ cs, st = some (.dir cs)

/-- The entry list after `make_dir` recreates child `j` inside children `cs`:
every old binding of `j` is deleted and a fresh empty directory is appended. -/
def opd (cs : List (String × FSNode)) (j : String) : List (String × FSNode) :=
  delChild cs j ++ [(j, .dir [])]

/-- Processing dotfile `i` neither raises nor stops the loop: it is either
skipped (its dot-prefixed source basename is excluded) or copied from an
existing source file. -/
def stepOk (home : List (String × FSNode)) (ex : List String) (i : String) : Prop :=
  ("." ++ i) ∈ ex ∨ ∃ c, lookupChild home ("." ++ i) = some (.file c)

/-- A pattern containing none of fnmatch's special characters. -/
def noWildcard (p : String) : Prop :=
  ∀ ch ∈ p.toList, ch ≠ '*' ∧ ch ≠ '?' ∧ ch ≠ '['

instance (p : String) : Decidable (noWildcard p) :=
  List.decidableBAll _ p.toList

/-- Modelled from the spec's words for C4 ("omitting any entry (file or
directory, at any depth) whose basename matches `excluded_names`", "matched
by exact name at any level copied"): the filter that drops an entry iff its
basename is exactly a member of the exclude list. -/
def exactFilterChildren (ex : List String) : List (String × FSNode) → List (String × FSNode)
  | [] => []
  | (n, .file c) :: rest =>
    if n ∈ ex then exactFilterChildren ex rest
    else (n, .file c) :: exactFilterChildren ex rest
  | (n, .dir cs) :: rest =>
    if n ∈ ex then exactFilterChildren ex rest
    else (n, .dir (exactFilterChildren ex cs)) :: exactFilterChildren ex rest

/-- Modelled from the spec's words for C4: `copy_dir` as the spec describes
it, with exact-membership filtering at every level (the top-level skip is
exact membership in the code as well). -/
def exactCopyDir (src : Option FSNode) (srcName : String) (st : St) (dst : List String)
    (exclude : List String) : St × Except PyError Unit :=
  if srcName ∈ exclude then (st, .ok ())
  else
    match src with
    | none => (st, .error .fileNotFoundError)
    | some (.file _) => (st, .error .notADirectoryError)
    | some (.dir scs) =>
      match placeAux st dst (.dir (exactFilterChildren exclude scs)) with
      | .ok n => (some n, .ok ())
      | .error e => (st, .error e)

/-- Destination states describing the same filesystem tree: same
existence/kind at the root and, for directories, literally equal child
bindings for every name (entry order is representation noise). -/
def stEquiv : St → St → Prop
  | none, none => True
  | some (.file c), some (.file c') => c = c'
  | some (.dir cs), some (.dir cs') => ∀ k, lookupChild cs k = lookupChild cs' k
  | _, _ => False

/-- The error `copytree` raises once `backup`'s `make_dir` has created the
destination: determined by the shape of the source alone. -/
def srcErr : Option FSNode → PyError
  | none => .fileNotFoundError
  | some (.file _) => .notADirectoryError
  | some (.dir _) => .fileExistsError


/-! ### Basic lemmas about directory-entry operations -/

theorem lookup_set_self (cs : List (String × FSNode)) (n : String) (v : FSNode) :
    lookupChild (setChild cs n v) n = some v := by
  induction cs with
  | nil => simp [setChild, lookupChild]
  | cons e rest ih =>
    obtain ⟨k, w⟩ := e
    by_cases hk : k = n
    · simp [setChild, hk, lookupChild]
    · simp [setChild, hk, lookupChild, ih]

theorem delChild_cons (k : String) (w : FSNode) (rest : List (String × FSNode)) (n : String) :
    delChild ((k, w) :: rest) n =
      if k = n then delChild rest n else (k, w) :: delChild rest n := by
  by_cases hk : k = n <;> simp [delChild, hk]

theorem lookup_set_other (cs : List (String × FSNode)) (n k : String) (v : FSNode)
    (hk : k ≠ n) : lookupChild (setChild cs n v) k = lookupChild cs k := by
  induction cs with
  | nil => simp [setChild, lookupChild, Ne.symm hk]
  | cons e rest ih =>
    obtain ⟨k', w⟩ := e
    by_cases hk' : k' = n
    · subst hk'
      simp [setChild, lookupChild, Ne.symm hk]
    · simp [setChild, hk', lookupChild, ih]

theorem lookup_del_self (cs : List (String × FSNode)) (n : String) :
    lookupChild (delChild cs n) n = none := by
  induction cs with
  | nil => simp [delChild, lookupChild]
  | cons e rest ih =>
    obtain ⟨k, w⟩ := e
    rw [delChild_cons]
    by_cases hk : k = n
    · simpa [hk] using ih
    · simpa [lookupChild, hk] using ih

theorem lookup_del_other (cs : List (String × FSNode)) (n k : String) (hk : k ≠ n) :
    lookupChild (delChild cs n) k = lookupChild cs k := by
  induction cs with
  | nil => simp [delChild]
  | cons e rest ih =>
    obtain ⟨k', w⟩ := e
    rw [delChild_cons]
    by_cases hk' : k' = n
    · subst hk'
      simp [lookupChild, Ne.symm hk, ih]
    · by_cases hkk : k' = k
      · simp [hk', lookupChild, hkk, hk]
      · simp [hk', lookupChild, hkk, ih]

theorem lookupChild_append (a b : List (String × FSNode)) (k : String) :
    lookupChild (a ++ b) k =
      (match lookupChild a k with
       | some v => some v
       | none => lookupChild b k) := by
  induction a with
  | nil => simp [lookupChild]
  | cons e rest ih =>
    obtain ⟨k', w⟩ := e
    by_cases hk : k' = k
    · simp [lookupChild, hk]
    · simp [lookupChild, hk, ih]

theorem lookup_absent_set (cs : List (String × FSNode)) (j : String) (v : FSNode)
    (h : lookupChild cs j = none) : setChild cs j v = cs ++ [(j, v)] := by
  induction cs with
  | nil => simp [setChild]
  | cons e rest ih =>
    obtain ⟨k, w⟩ := e
    by_cases hk : k = j
    · simp [lookupChild, hk] at h
    · simp [lookupChild, hk] at h
      simp [setChild, hk, ih h]

theorem lookup_absent_del (cs : List (String × FSNode)) (j : String)
    (h : lookupChild cs j = none) : delChild cs j = cs := by
  induction cs with
  | nil => simp [delChild]
  | cons e rest ih =>
    obtain ⟨k, w⟩ := e
    by_cases hk : k = j
    · simp [lookupChild, hk] at h
    · simp [lookupChild, hk] at h
      rw [delChild_cons, if_neg hk, ih h]

/-! ### Characterizations of `make_dir` at the paths `backup` uses -/

theorem make_dir_root_none : make_dir none [] = (some (.dir []), .ok ()) := rfl

theorem make_dir_root_dir (cs : List (String × FSNode)) :
    make_dir (some (.dir cs)) [] = (some (.dir []), .ok ()) := rfl

theorem make_dir_root_file (c : String) :
    make_dir (some (.file c)) [] = (some (.file c), .error .notADirectoryError) := rfl

theorem make_dir_root (st : St) (h : rootDirOr st) :
    make_dir st [] = (some (.dir []), .ok ()) := by
  rcases h with h | ⟨cs, h⟩ <;> subst h
  · exact make_dir_root_none
  · exact make_dir_root_dir cs

theorem make_dir_child_none (j : String) :
    make_dir none [j] = (some (.dir (opd [] j)), .ok ()) := rfl

theorem make_dir_child_file (cs : List (String × FSNode)) (j : String) (c : String)
    (hf : lookupChild cs j = some (.file c)) :
    make_dir (some (.dir cs)) [j] = (some (.dir cs), .error .notADirectoryError) := by
  simp [make_dir, lookupPath, rmtree, hf]

theorem make_dir_child_ok (cs : List (String × FSNode)) (j : String)
    (h : ∀ c, lookupChild cs j ≠ some (.file c)) :
    make_dir (some (.dir cs)) [j] = (some (.dir (opd cs j)), .ok ()) := by
  cases hlk : lookupChild cs j with
  | none =>
    have hset := lookup_absent_set cs j (.dir []) hlk
    have hdel := lookup_absent_del cs j hlk
    simp [make_dir, lookupPath, hlk, placeAux, opd, hset, hdel]
  | some node =>
    cases node with
    | file c => exact absurd hlk (h c)
    | dir d =>
      have hdelnone : lookupChild (delChild cs j) j = none := lookup_del_self cs j
      have hset := lookup_absent_set (delChild cs j) j (.dir []) hdelnone
      simp [make_dir, lookupPath, hlk, rmtree, delPath, placeAux, hdelnone, hset, opd]

theorem lookup_opd_self (cs : List (String × FSNode)) (j : String) :
    lookupChild (opd cs j) j = some (.dir []) := by
  simp [opd, lookupChild_append, lookup_del_self, lookupChild]

theorem lookup_opd_other (cs : List (String × FSNode)) (j k : String) (hk : k ≠ j) :
    lookupChild (opd cs j) k = lookupChild cs k := by
  simp [opd, lookupChild_append, lookup_del_other cs j k hk, lookupChild, hk, Ne.symm hk]
  cases lookupChild cs k <;> simp

/-! ### `make_dir` postcondition (claim C7) -/

theorem lookupPath_nil (st : St) : lookupPath st [] = st := by
  match st with
  | none => rfl
  | some (.file c) => rfl
  | some (.dir cs) => rfl

theorem placeAux_lookup : ∀ (p : List String) (st : Option FSNode) (v n : FSNode),
    placeAux st p v = .ok n → lookupPath (some n) p = some v := by
  intro p
  induction p with
  | nil =>
    intro st v n h
    match st with
    | none => simp [placeAux] at h; rw [← h, lookupPath_nil]
    | some x => simp [placeAux] at h
  | cons x rest ih =>
    intro st v n h
    match st with
    | none =>
      rw [placeAux] at h
      cases hrec : placeAux none rest v with
      | ok c =>
        rw [hrec] at h
        simp only [Except.ok.injEq] at h
        rw [← h]
        simpa [lookupPath, lookupChild] using ih none v c hrec
      | error e => rw [hrec] at h; simp at h
    | some (.file c) => simp [placeAux] at h
    | some (.dir cs) =>
      rw [placeAux] at h
      cases hrec : placeAux (lookupChild cs x) rest v with
      | ok c =>
        rw [hrec] at h
        simp only [Except.ok.injEq] at h
        rw [← h]
        simpa [lookupPath, lookup_set_self] using ih (lookupChild cs x) v c hrec
      | error e => rw [hrec] at h; simp at h

theorem make_dir_clean (st : St) (p : List String) (st' : St)
    (h : make_dir st p = (st', .ok ())) : lookupPath st' p = some (.dir []) := by
  rw [make_dir] at h
  by_cases hex : (lookupPath st p).isSome
  · rw [if_pos hex] at h
    cases hrm : rmtree st p with
    | mk st1 out =>
      rw [hrm] at h
      cases out with
      | error e => simp at h
      | ok u =>
        have h2 : (match placeAux st1 p (.dir []) with
            | .ok n => ((some n : St), (Except.ok () : Except PyError Unit))
            | .error e => (st1, Except.error e)) = (st', .ok ()) := h
        cases hpl : placeAux st1 p (.dir []) with
        | ok n =>
          rw [hpl] at h2
          simp only [Prod.mk.injEq] at h2
          rw [← h2.1]
          exact placeAux_lookup p st1 _ n hpl
        | error e => rw [hpl] at h2; simp at h2
  · rw [if_neg hex] at h
    cases hpl : placeAux st p (.dir []) with
    | ok n =>
      rw [hpl] at h
      simp only [Prod.mk.injEq] at h
      rw [← h.1]
      exact placeAux_lookup p st _ n hpl
    | error e => rw [hpl] at h; simp at h

theorem lookupPath_cons (cs : List (String × FSNode)) (x : String) (rest : List String) :
    lookupPath (some (.dir cs)) (x :: rest) = lookupPath (lookupChild cs x) rest := rfl

theorem lookupPath_cons_inv (st : St) (x : String) (rest : List String) (y : FSNode)
    (h : lookupPath st (x :: rest) = some y) : ∃ cs, st = some (.dir cs) := by
  match st with
  | none => simp [lookupPath] at h
  | some (.file c) => simp [lookupPath] at h
  | some (.dir cs) => exact ⟨cs, rfl⟩

theorem rmtree_dir_nonempty (cs : List (String × FSNode)) (x : String) (rest : List String)
    (d : List (String × FSNode))
    (h : lookupPath (some (.dir cs)) (x :: rest) = some (.dir d)) :
    rmtree (some (.dir cs)) (x :: rest) = (some (.dir (delPath cs (x :: rest))), .ok ()) := by
  simp only [rmtree, h]

theorem placeAux_after_del : ∀ (p : List String) (cs : List (String × FSNode)) (v : FSNode)
    (d : List (String × FSNode)),
    lookupPath (some (.dir cs)) p = some (.dir d) → p ≠ [] →
    ∃ n, placeAux (some (.dir (delPath cs p))) p v = .ok n := by
  intro p
  induction p with
  | nil => intro cs v d h hne; exact absurd rfl hne
  | cons x rest ih =>
    intro cs v d h _
    cases rest with
    | nil =>
      refine ⟨.dir (setChild (delChild cs x) x v), ?_⟩
      have hd : delPath cs [x] = delChild cs x := rfl
      rw [hd]
      simp [placeAux, lookup_del_self]
    | cons r rs =>
      rw [lookupPath_cons] at h
      cases hlk : lookupChild cs x with
      | none => rw [hlk] at h; simp [lookupPath] at h
      | some node =>
        cases node with
        | file c => rw [hlk] at h; simp [lookupPath] at h
        | dir cs' =>
          rw [hlk] at h
          obtain ⟨n, hn⟩ := ih cs' v d h (by simp)
          have hd : delPath cs (x :: r :: rs) = setChild cs x (.dir (delPath cs' (r :: rs))) := by
            simp [delPath, hlk]
          refine ⟨.dir (setChild (setChild cs x (.dir (delPath cs' (r :: rs)))) x n), ?_⟩
          rw [hd]
          simp only [placeAux, lookup_set_self, hn]

theorem make_dir_on_dir (st : St) (p : List String) (d : List (String × FSNode))
    (h : lookupPath st p = some (.dir d)) :
    ∃ st'', make_dir st p = (st'', .ok ()) ∧ lookupPath st'' p = some (.dir []) := by
  cases p with
  | nil =>
    rw [lookupPath_nil] at h
    subst h
    exact ⟨some (.dir []), make_dir_root_dir d, rfl⟩
  | cons x rest =>
    obtain ⟨cs, hcs⟩ := lookupPath_cons_inv st x rest _ h
    subst hcs
    have hex : (lookupPath (some (.dir cs)) (x :: rest)).isSome := by rw [h]; rfl
    have hrm := rmtree_dir_nonempty cs x rest d h
    obtain ⟨n, hn⟩ := placeAux_after_del (x :: rest) cs (.dir []) d h (by simp)
    refine ⟨some n, ?_, placeAux_lookup _ _ _ _ hn⟩
    rw [make_dir, if_pos hex, hrm]
    simp [hn]

/-- C7: whenever `ensure_clean_directory` (the `make_dir` function) returns
successfully — on a previously missing path, or on an existing directory with
stale content — the path afterwards exists as an empty directory, and a
second consecutive call on the same path also succeeds and again leaves it an
empty directory. -/
theorem C7_make_dir_ensures_clean (st : St) (p : List String) (st' : St)
    (h : make_dir st p = (st', .ok ())) :
    lookupPath st' p = some (.dir []) ∧
      ∃ st'', make_dir st' p = (st'', .ok ()) ∧ lookupPath st'' p = some (.dir []) := by
  have h1 := make_dir_clean st p st' h
  exact ⟨h1, make_dir_on_dir st' p [] h1⟩

theorem C7_witness :
    make_dir (some (.dir [("d", .dir [("stale", .file "s")])])) ["d"] =
      (some (.dir [("d", .dir [])]), .ok ()) ∧
      (lookupPath (some (.dir [("d", .dir [])])) ["d"] = some (.dir []) ∧
        ∃ st'', make_dir (some (.dir [("d", .dir [])])) ["d"] = (st'', .ok ()) ∧
          lookupPath st'' ["d"] = some (.dir [])) :=
  ⟨rfl, C7_make_dir_ensures_clean (some (.dir [("d", .dir [("stale", .file "s")])])) ["d"]
    (some (.dir [("d", .dir [])])) rfl⟩

/-- C8: the text written for each conda environment is the raw captured
export output with its last two newline-separated lines dropped and the rest
rejoined with newlines. -/
theorem C8_conda_strip_trailer (raw : String) :
    condaYmlText raw =
      String.intercalate "\n"
        ((raw.splitOn "\n").take ((raw.splitOn "\n").length - 2)) := by
  unfold condaYmlText
  congr 1
  rw [List.dropLast_eq_take, List.dropLast_eq_take, List.take_take, List.length_take]
  congr 1
  omega

/-- C3 counterexample: with the `dotfiles` key absent, `backup` silently does
nothing at all — the remaining `dotfolders` category is *not* processed
(compare the same configuration with `dotfiles` present as an empty list,
which does create `output/x`). -/
theorem C3_counterexample :
    backup [(".x", .dir [])] ⟨none, some ["x"], some [".x"]⟩ none = (none, .ok ()) ∧
      backup [(".x", .dir [])] ⟨some [], some ["x"], some [".x"]⟩ none =
        (some (.dir [("x", .dir [])]), .ok ()) ∧
      (backup [(".x", .dir [])] ⟨none, some ["x"], some [".x"]⟩ none).1 ≠
        (backup [(".x", .dir [])] ⟨some [], some ["x"], some [".x"]⟩ none).1 :=
  ⟨rfl, rfl, fun h => Option.noConfusion h⟩

/-- C3 (amended): a missing `dotfiles`/`dotfolders`/`exclude` key never makes
`backup` raise (the `KeyError` is swallowed), but it silently ends the whole
run at the failing lookup instead of defaulting that category to empty: with
`dotfiles` absent nothing at all is processed and the destination state is
returned unchanged. -/
theorem C3_missing_key_aborts_silently (home : List (String × FSNode))
    (df ex : Option (List String)) (st : St) :
    backup home ⟨none, df, ex⟩ st = (st, .ok ()) := rfl

/-- C9: with a non-empty `dotfiles` list and no `exclude` key, `backup`
returns without error and copies nothing, but the destination parent of the
first dotfile has already been cleared and recreated empty before the
suppressed `KeyError` — the destination is not left unchanged. -/
theorem C9_cleared_despite_key_error (home : List (String × FSNode)) (item : String)
    (rest : List String) (df : Option (List String)) (st : St) (h : rootDirOr st) :
    backup home ⟨some (item :: rest), df, none⟩ st = (some (.dir []), .ok ()) := by
  have hmd := make_dir_root st h
  simp [backup, backupBody, dotfilesLoop, hmd]

theorem C9_witness :
    rootDirOr (some (.dir [("old", .file "o")])) ∧
      backup [] ⟨some ["a"], some [], none⟩ (some (.dir [("old", .file "o")])) =
        (some (.dir []), .ok ()) :=
  ⟨Or.inr ⟨_, rfl⟩, C9_cleared_despite_key_error [] "a" [] (some []) _ (Or.inr ⟨_, rfl⟩)⟩

/-- C1 (code bug): on the spec's own example — `dotfolders: ["config"]`,
`exclude: ["secrets"]`, a home directory with `.config/app.conf` and
`.config/secrets`, a fresh destination — `backup` raises `FileExistsError`
instead of completing: it pre-creates `output/config` with `make_dir`, and
`copytree` then refuses the existing destination.  `output/config/app.conf`
is never produced. -/
theorem C1_backup_dotfolder_raises :
    backup [(".config", .dir [("app.conf", .file "A"), ("secrets", .file "S")])]
        ⟨some [], some ["config"], some ["secrets"]⟩ none =
      (some (.dir [("config", .dir [])]), .error .fileExistsError) ∧
      lookupPath
        (backup [(".config", .dir [("app.conf", .file "A"), ("secrets", .file "S")])]
          ⟨some [], some ["config"], some ["secrets"]⟩ none).1
        ["config", "app.conf"] = none :=
  ⟨rfl, rfl⟩

/-! ### The dotfiles loop run to completion (claims C2 and C5) -/

theorem dotfilesLoop_last (home : List (String × FSNode)) (ex : List String) (x : String)
    (c : String) (hx : ("." ++ x) ∉ ex) (hsrc : lookupChild home ("." ++ x) = some (.file c)) :
    ∀ (l : List String) (st : St), rootDirOr st → (∀ i ∈ l, stepOk home ex i) →
      dotfilesLoop home (some ex) (l ++ [x]) st = (some (.dir [(x, .file c)]), .ok ()) := by
  intro l
  induction l with
  | nil =>
    intro st hst _
    have hmd := make_dir_root st hst
    simp only [List.nil_append]
    simp [dotfilesLoop, hmd, copy_file, make_dir_root_dir, hx, hsrc, copy2, writeInto,
      lookupChild, setChild]
  | cons i l' ih =>
    intro st hst hall
    have hmd := make_dir_root st hst
    have hrest : ∀ j ∈ l', stepOk home ex j := fun j hj => hall j (List.mem_cons_of_mem _ hj)
    simp only [List.cons_append]
    by_cases hin : ("." ++ i) ∈ ex
    · have hstep : dotfilesLoop home (some ex) (i :: (l' ++ [x])) st =
          dotfilesLoop home (some ex) (l' ++ [x]) (some (.dir [])) := by
        simp [dotfilesLoop, hmd, copy_file, make_dir_root_dir, hin]
      rw [hstep]
      exact ih (some (.dir [])) (Or.inr ⟨[], rfl⟩) hrest
    · obtain ⟨ci, hci⟩ := (hall i (List.mem_cons_self i l')).resolve_left hin
      have hstep : dotfilesLoop home (some ex) (i :: (l' ++ [x])) st =
          dotfilesLoop home (some ex) (l' ++ [x]) (some (.dir [(i, .file ci)])) := by
        simp [dotfilesLoop, hmd, copy_file, make_dir_root_dir, hin, hci, copy2, writeInto,
          lookupChild, setChild]
      rw [hstep]
      exact ih (some (.dir [(i, .file ci)])) (Or.inr ⟨_, rfl⟩) hrest

/-- C5: every per-file copy clears the entire shared destination parent (the
backup root) first, so after a `backup` run over a dotfiles list ending in a
non-excluded `x` with an existing source, the backup root contains *only* the
last dotfile's copy — every copy made earlier in the same run has been
destroyed. -/
theorem C5_last_dotfile_wins (home : List (String × FSNode)) (l : List String) (x : String)
    (ex : List String) (c : String) (st : St)
    (hst : rootDirOr st) (hall : ∀ i ∈ l, stepOk home ex i)
    (hx : ("." ++ x) ∉ ex) (hsrc : lookupChild home ("." ++ x) = some (.file c)) :
    backup home ⟨some (l ++ [x]), some [], some ex⟩ st =
      (some (.dir [(x, .file c)]), .ok ()) ∧
      ∀ i : String, i ≠ x →
        lookupPath (backup home ⟨some (l ++ [x]), some [], some ex⟩ st).1 [i] = none := by
  have hloop := dotfilesLoop_last home ex x c hx hsrc l st hst hall
  have hb : backup home ⟨some (l ++ [x]), some [], some ex⟩ st =
      (some (.dir [(x, .file c)]), .ok ()) := by
    simp [backup, backupBody, hloop, dotfoldersLoop]
  refine ⟨hb, fun i hi => ?_⟩
  rw [hb]
  simp [lookupPath, lookupChild, Ne.symm hi]

theorem C5_witness :
    (rootDirOr (none : St) ∧
      (∀ i ∈ ["a"], stepOk [(".a", .file "1"), (".b", .file "2")] [] i) ∧
      ("." ++ "b") ∉ ([] : List String) ∧
      lookupChild [(".a", .file "1"), (".b", .file "2")] ("." ++ "b") = some (.file "2")) ∧
    (backup [(".a", .file "1"), (".b", .file "2")] ⟨some (["a"] ++ ["b"]), some [], some []⟩
        none = (some (.dir [("b", .file "2")]), .ok ()) ∧
      ∀ i : String, i ≠ "b" →
        lookupPath
          (backup [(".a", .file "1"), (".b", .file "2")] ⟨some (["a"] ++ ["b"]), some [],
            some []⟩ none).1 [i] = none) :=
  ⟨⟨Or.inl rfl, fun i hi => by simp at hi; subst hi; exact Or.inr ⟨"1", rfl⟩, by simp, rfl⟩,
    C5_last_dotfile_wins [(".a", .file "1"), (".b", .file "2")] ["a"] "b" [] "2" none
      (Or.inl rfl) (fun i hi => by simp at hi; subst hi; exact Or.inr ⟨"1", rfl⟩)
      (by simp) rfl⟩

/-- C2 counterexample: `dotfiles: ["a"]`, `exclude: ["a"]`, home containing
`.a` — after `backup`, the destination `output/a` *does* exist and no error
is raised, refuting "the corresponding destination path does not exist". -/
theorem C2_counterexample :
    backup [(".a", .file "x")] ⟨some ["a"], some [], some ["a"]⟩ none =
      (some (.dir [("a", .file "x")]), .ok ()) ∧
      lookupPath (backup [(".a", .file "x")] ⟨some ["a"], some [], some ["a"]⟩ none).1 ["a"] =
        some (.file "x") :=
  ⟨rfl, rfl⟩

/-- C2 (amended): a name listed in both `dotfiles` and `exclude` is *not*
excluded, because `copy_file` compares the dot-prefixed source basename
(`"." ++ name`) against the exclude list; for a single-dotfile configuration
with an existing source the destination `<backup_root>/<name>` exists after
`backup` and no error is raised.  The copy is suppressed only when
`"." ++ name` itself is in `exclude`. -/
theorem C2_raw_name_not_excluded (home : List (String × FSNode)) (name c : String)
    (ex : List String) (st : St) (hst : rootDirOr st)
    (hmem : name ∈ ex) (hdot : ("." ++ name) ∉ ex)
    (hsrc : lookupChild home ("." ++ name) = some (.file c)) :
    backup home ⟨some [name], some [], some ex⟩ st =
      (some (.dir [(name, .file c)]), .ok ()) := by
  have hloop := dotfilesLoop_last home ex name c hdot hsrc [] st hst (by simp)
  simp only [List.nil_append] at hloop
  simp [backup, backupBody, hloop, dotfoldersLoop]

theorem C2_witness :
    (rootDirOr (none : St) ∧ "a" ∈ ["a"] ∧ ("." ++ "a") ∉ ["a"] ∧
      lookupChild [(".a", .file "x")] ("." ++ "a") = some (.file "x")) ∧
      backup [(".a", .file "x")] ⟨some ["a"], some [], some ["a"]⟩ none =
        (some (.dir [("a", .file "x")]), .ok ()) :=
  ⟨⟨Or.inl rfl, by simp, by simp, rfl⟩,
    C2_raw_name_not_excluded [(".a", .file "x")] "a" "x" ["a"] none (Or.inl rfl)
      (by simp) (by simp) rfl⟩

/-! ### Exclusion semantics inside `copytree` (claim C4) -/

theorem globMatch_literal : ∀ (p s : List Char),
    (∀ ch ∈ p, ch ≠ '*' ∧ ch ≠ '?' ∧ ch ≠ '[') → (globMatch p s = true ↔ p = s) := by
  intro p
  induction p with
  | nil =>
    intro s _
    cases s <;> simp [globMatch.eq_def]
  | cons c ps ih =>
    intro s h
    have hc := h c (List.mem_cons_self c ps)
    cases s with
    | nil =>
      rw [globMatch.eq_def]
      simp only [if_neg hc.1, if_neg hc.2.1, if_neg hc.2.2]
      simp
    | cons d s' =>
      rw [globMatch.eq_def]
      simp only [if_neg hc.1, if_neg hc.2.1, if_neg hc.2.2]
      have hrest := ih s' (fun ch hch => h ch (List.mem_cons_of_mem _ hch))
      simp [Bool.and_eq_true, beq_iff_eq, hrest, List.cons.injEq]

theorem ignoreMatches_exact (ex : List String) (hwf : ∀ p ∈ ex, noWildcard p) (n : String) :
    ignoreMatches ex n = true ↔ n ∈ ex := by
  unfold ignoreMatches
  rw [List.any_eq_true]
  constructor
  · rintro ⟨p, hp, hm⟩
    have hl := (globMatch_literal p.toList n.toList (fun ch hch => hwf p hp ch hch)).mp hm
    have hpn : p = n := by
      cases p with
      | mk pd =>
        cases n with
        | mk nd =>
          have hdata : pd = nd := by simpa [String.toList] using hl
          rw [hdata]
    rw [← hpn]
    exact hp
  · intro hn
    exact ⟨n, hn, (globMatch_literal n.toList n.toList
      (fun ch hch => hwf n hn ch hch)).mpr rfl⟩

theorem filterChildren_exact (ex : List String) (hwf : ∀ p ∈ ex, noWildcard p) :
    ∀ cs, filterChildren ex cs = exactFilterChildren ex cs := by
  intro cs
  induction cs using filterChildren.induct ex with
  | case1 => rw [filterChildren, exactFilterChildren]
  | case2 n c rest hig ih =>
    rw [filterChildren, exactFilterChildren, if_pos hig,
      if_pos ((ignoreMatches_exact ex hwf n).mp hig), ih]
  | case3 n c rest hig ih =>
    rw [filterChildren, exactFilterChildren, if_neg hig, ih,
      if_neg (fun hmem => hig ((ignoreMatches_exact ex hwf n).mpr hmem))]
  | case4 n cs' rest hig ih =>
    rw [filterChildren, exactFilterChildren, if_pos hig,
      if_pos ((ignoreMatches_exact ex hwf n).mp hig), ih]
  | case5 n cs' rest hig ih1 ih2 =>
    rw [filterChildren, exactFilterChildren, if_neg hig, ih1, ih2,
      if_neg (fun hmem => hig ((ignoreMatches_exact ex hwf n).mpr hmem))]

/-- C4 counterexample: with exclude list `["a*"]`, `copy_dir` omits the
nested entry `ab` even though `"ab"` is not equal to any member of the list —
nested exclusion is fnmatch pattern matching, not exact membership. -/
theorem C4_counterexample :
    copy_dir (some (.dir [("ab", .file "v")])) "c" (some (.dir [])) ["d"] ["a*"] =
      (some (.dir [("d", .dir [])]), .ok ()) ∧ "ab" ∉ (["a*"] : List String) :=
  ⟨by simp [copy_dir, copytree, placeAux, filterChildren, ignoreMatches, fnmatch, globMatch,
      clsExtract, clsBody, splitAtRBrack, lookupChild, setChild], by simp⟩

/-- C4 (amended): inside `copy_dir`/`copytree` an entry is omitted iff its
basename matches some member of the exclude list under shell-style fnmatch
pattern matching (the source root's own basename is tested by exact
membership); when no member contains a wildcard character (`*`, `?`, `[`),
this coincides with the claim's exact-name-membership semantics, and
`copy_dir` equals the spec-modelled exact-membership copy. -/
theorem C4_exclusion_is_fnmatch (ex : List String) (hwf : ∀ p ∈ ex, noWildcard p)
    (src : Option FSNode) (srcName : String) (st : St) (dst : List String) :
    copy_dir src srcName st dst ex = exactCopyDir src srcName st dst ex := by
  unfold copy_dir exactCopyDir copytree
  by_cases hm : srcName ∈ ex
  · rw [if_pos hm, if_pos hm]
  · rw [if_neg hm, if_neg hm]
    simp only [filterChildren_exact ex hwf]

theorem C4_witness :
    (∀ p ∈ ["secrets"], noWildcard p) ∧
      copy_dir (some (.dir [("app.conf", .file "A"), ("secrets", .file "S")])) ".config"
          (some (.dir [])) ["config"] ["secrets"] =
        exactCopyDir (some (.dir [("app.conf", .file "A"), ("secrets", .file "S")])) ".config"
          (some (.dir [])) ["config"] ["secrets"] :=
  ⟨by decide, C4_exclusion_is_fnmatch ["secrets"] (by decide)
    (some (.dir [("app.conf", .file "A"), ("secrets", .file "S")])) ".config"
    (some (.dir [])) ["config"]⟩

/-! ### `main`'s inline loops versus `backup` (claim C10) -/

theorem placeAux_no_keyError : ∀ (p : List String) (st : Option FSNode) (v : FSNode)
    (e : PyError), placeAux st p v = .error e → e ≠ .keyError := by
  intro p
  induction p with
  | nil =>
    intro st v e h
    match st with
    | none => simp [placeAux] at h
    | some x =>
      simp only [placeAux, Except.error.injEq] at h
      intro hk
      exact absurd (h.trans hk) (by decide)
  | cons n rest ih =>
    intro st v e h
    match st with
    | none =>
      rw [placeAux] at h
      cases hrec : placeAux none rest v with
      | ok c => rw [hrec] at h; simp at h
      | error e2 =>
        rw [hrec] at h
        simp only [Except.error.injEq] at h
        intro hk
        exact ih none v e2 hrec (h.trans hk)
    | some (.file c) =>
      simp only [placeAux, Except.error.injEq] at h
      intro hk
      exact absurd (h.trans hk) (by decide)
    | some (.dir cs) =>
      rw [placeAux] at h
      cases hrec : placeAux (lookupChild cs n) rest v with
      | ok c => rw [hrec] at h; simp at h
      | error e2 =>
        rw [hrec] at h
        simp only [Except.error.injEq] at h
        intro hk
        exact ih (lookupChild cs n) v e2 hrec (h.trans hk)

theorem rmtree_no_keyError (st : St) (p : List String) (st1 : St) (e : PyError)
    (h : rmtree st p = (st1, .error e)) : e ≠ .keyError := by
  unfold rmtree at h
  cases hl : lookupPath st p with
  | none =>
    rw [hl] at h
    simp only [Prod.mk.injEq, Except.error.injEq] at h
    intro hk
    exact absurd (h.2.trans hk) (by decide)
  | some node =>
    cases node with
    | file c =>
      rw [hl] at h
      simp only [Prod.mk.injEq, Except.error.injEq] at h
      intro hk
      exact absurd (h.2.trans hk) (by decide)
    | dir d =>
      rw [hl] at h
      match p, st with
      | [], _ => simp at h
      | x :: xs, none =>
        simp only [Prod.mk.injEq, Except.error.injEq] at h
        intro hk
        exact absurd (h.2.trans hk) (by decide)
      | x :: xs, some (.file cc) =>
        simp only [Prod.mk.injEq, Except.error.injEq] at h
        intro hk
        exact absurd (h.2.trans hk) (by decide)
      | x :: xs, some (.dir cs) => simp at h

theorem make_dir_no_keyError (st : St) (p : List String) (st1 : St) (e : PyError)
    (h : make_dir st p = (st1, .error e)) : e ≠ .keyError := by
  rw [make_dir] at h
  by_cases hex : (lookupPath st p).isSome
  · rw [if_pos hex] at h
    cases hrm : rmtree st p with
    | mk s2 out =>
      rw [hrm] at h
      cases out with
      | error e2 =>
        have h2 : ((s2, Except.error e2) : St × Except PyError Unit) = (st1, .error e) := h
        simp only [Prod.mk.injEq, Except.error.injEq] at h2
        intro hk
        exact rmtree_no_keyError st p s2 e2 hrm (h2.2.trans hk)
      | ok u =>
        have h2 : (match placeAux s2 p (.dir []) with
            | .ok n => ((some n : St), (Except.ok () : Except PyError Unit))
            | .error e => (s2, Except.error e)) = (st1, .error e) := h
        cases hpl : placeAux s2 p (.dir []) with
        | ok n => rw [hpl] at h2; simp at h2
        | error e2 =>
          rw [hpl] at h2
          simp only [Prod.mk.injEq, Except.error.injEq] at h2
          intro hk
          exact placeAux_no_keyError p s2 _ e2 hpl (h2.2.trans hk)
  · rw [if_neg hex] at h
    cases hpl : placeAux st p (.dir []) with
    | ok n => rw [hpl] at h; simp at h
    | error e2 =>
      rw [hpl] at h
      simp only [Prod.mk.injEq, Except.error.injEq] at h
      intro hk
      exact placeAux_no_keyError p st _ e2 hpl (h.2.trans hk)

theorem writeInto_no_keyError : ∀ (p : List String) (cs : List (String × FSNode)) (v : FSNode)
    (e : PyError), writeInto cs p v = .error e → e ≠ .keyError := by
  intro p
  induction p with
  | nil =>
    intro cs v e h
    simp only [writeInto, Except.error.injEq] at h
    intro hk
    exact absurd (h.trans hk) (by decide)
  | cons n rest ih =>
    intro cs v e h
    cases rest with
    | nil =>
      rw [writeInto] at h
      cases hlk : lookupChild cs n with
      | none => rw [hlk] at h; simp at h
      | some node =>
        cases node with
        | file c => rw [hlk] at h; simp at h
        | dir d =>
          rw [hlk] at h
          simp only [Except.error.injEq] at h
          intro hk
          exact absurd (h.trans hk) (by decide)
    | cons m ms =>
      have h0 : (match lookupChild cs n with
          | some (.dir cs') =>
            match writeInto cs' (m :: ms) v with
            | Except.ok cs'' => Except.ok (setChild cs n (.dir cs''))
            | Except.error e => Except.error e
          | some (.file _) => Except.error PyError.notADirectoryError
          | none =>
            (Except.error PyError.fileNotFoundError :
              Except PyError (List (String × FSNode)))) = Except.error e := h
      cases hlk : lookupChild cs n with
      | none =>
        rw [hlk] at h0
        simp only [Except.error.injEq] at h0
        intro hk
        exact absurd (h0.trans hk) (by decide)
      | some node =>
        cases node with
        | file c =>
          rw [hlk] at h0
          simp only [Except.error.injEq] at h0
          intro hk
          exact absurd (h0.trans hk) (by decide)
        | dir cs' =>
          rw [hlk] at h0
          have h2 : (match writeInto cs' (m :: ms) v with
              | Except.ok cs'' => Except.ok (setChild cs n (.dir cs''))
              | Except.error e =>
                (Except.error e : Except PyError (List (String × FSNode)))) =
              Except.error e := h0
          cases hrec : writeInto cs' (m :: ms) v with
          | ok c2 => rw [hrec] at h2; simp at h2
          | error e2 =>
            rw [hrec] at h2
            simp only [Except.error.injEq] at h2
            intro hk
            exact ih cs' v e2 hrec (h2.trans hk)

theorem copy2_no_keyError (src : Option FSNode) (st : St) (dst : List String) (st1 : St)
    (e : PyError) (h : copy2 src st dst = (st1, .error e)) : e ≠ .keyError := by
  unfold copy2 at h
  match src with
  | none =>
    simp only [Prod.mk.injEq, Except.error.injEq] at h
    intro hk
    exact absurd (h.2.trans hk) (by decide)
  | some (.dir d) =>
    simp only [Prod.mk.injEq, Except.error.injEq] at h
    intro hk
    exact absurd (h.2.trans hk) (by decide)
  | some (.file c) =>
    match st, dst with
    | none, _ =>
      simp only [Prod.mk.injEq, Except.error.injEq] at h
      intro hk
      exact absurd (h.2.trans hk) (by decide)
    | some (.file cc), _ =>
      simp only [Prod.mk.injEq, Except.error.injEq] at h
      intro hk
      exact absurd (h.2.trans hk) (by decide)
    | some (.dir cs), [] =>
      simp only [Prod.mk.injEq, Except.error.injEq] at h
      intro hk
      exact absurd (h.2.trans hk) (by decide)
    | some (.dir cs), d0 :: ds =>
      have h2 : (match writeInto cs (d0 :: ds) (.file c) with
          | Except.ok cs' => ((some (.dir cs') : St), (Except.ok () : Except PyError Unit))
          | Except.error e => (some (.dir cs), Except.error e)) = (st1, .error e) := h
      cases hw : writeInto cs (d0 :: ds) (.file c) with
      | ok cs' => rw [hw] at h2; simp at h2
      | error e2 =>
        rw [hw] at h2
        simp only [Prod.mk.injEq, Except.error.injEq] at h2
        intro hk
        exact writeInto_no_keyError (d0 :: ds) cs _ e2 hw (h2.2.trans hk)

theorem copy_file_no_keyError (src : Option FSNode) (sn : String) (st : St) (dst : List String)
    (ex : List String) (st1 : St) (e : PyError)
    (h : copy_file src sn st dst ex = (st1, .error e)) : e ≠ .keyError := by
  unfold copy_file at h
  cases hmd : make_dir st dst.dropLast with
  | mk s2 out =>
    rw [hmd] at h
    cases out with
    | error e2 =>
      have h2 : ((s2, Except.error e2) : St × Except PyError Unit) = (st1, .error e) := h
      simp only [Prod.mk.injEq, Except.error.injEq] at h2
      intro hk
      exact make_dir_no_keyError st dst.dropLast s2 e2 hmd (h2.2.trans hk)
    | ok u =>
      have h2 : (if sn ∈ ex then ((s2 : St), (Except.ok () : Except PyError Unit))
          else copy2 src s2 dst) = (st1, .error e) := h
      by_cases hin : sn ∈ ex
      · rw [if_pos hin] at h2; simp at h2
      · rw [if_neg hin] at h2
        exact copy2_no_keyError src s2 dst st1 e h2

theorem dotfilesLoop_no_keyError (home : List (String × FSNode)) (ex : List String) :
    ∀ (fs : List String) (st st1 : St) (e : PyError),
      dotfilesLoop home (some ex) fs st = (st1, .error e) → e ≠ .keyError := by
  intro fs
  induction fs with
  | nil => intro st st1 e h; simp [dotfilesLoop] at h
  | cons i rest ih =>
    intro st st1 e h
    rw [dotfilesLoop] at h
    cases hmd : make_dir st [] with
    | mk s2 out =>
      rw [hmd] at h
      cases out with
      | error e2 =>
        have h2 : ((s2, Except.error e2) : St × Except PyError Unit) = (st1, .error e) := h
        simp only [Prod.mk.injEq, Except.error.injEq] at h2
        intro hk
        exact make_dir_no_keyError st [] s2 e2 hmd (h2.2.trans hk)
      | ok u =>
        have h2 : (match copy_file (lookupChild home ("." ++ i)) ("." ++ i) s2 [i] ex with
            | (st2, Except.ok _) => dotfilesLoop home (some ex) rest st2
            | (st2, Except.error e) => (st2, Except.error e)) = (st1, .error e) := h
        cases hcf : copy_file (lookupChild home ("." ++ i)) ("." ++ i) s2 [i] ex with
        | mk s3 out2 =>
          rw [hcf] at h2
          cases out2 with
          | ok u2 =>
            have h3 : dotfilesLoop home (some ex) rest s3 = (st1, .error e) := h2
            exact ih s3 st1 e h3
          | error e3 =>
            have h3 : ((s3, Except.error e3) : St × Except PyError Unit) = (st1, .error e) := h2
            simp only [Prod.mk.injEq, Except.error.injEq] at h3
            intro hk
            exact copy_file_no_keyError _ _ s2 [i] ex s3 e3 hcf (h3.2.trans hk)

theorem copy_file_root_clears (src : Option FSNode) (sn : String) (i : String)
    (ex : List String) (st : St) (hst : rootDirOr st) :
    copy_file src sn st [i] ex = copy_file src sn (some (.dir [])) [i] ex := by
  have hmd := make_dir_root st hst
  simp [copy_file, hmd, make_dir_root_dir]

theorem dotfilesLoop_eq_main (home : List (String × FSNode)) (ex : List String) :
    ∀ (fs : List String) (st : St),
      dotfilesLoop home (some ex) fs st = mainDotfilesLoop home (some ex) fs st := by
  intro fs
  induction fs with
  | nil => intro st; rfl
  | cons i rest ih =>
    intro st
    match st with
    | some (.file cc) =>
      simp [dotfilesLoop, mainDotfilesLoop, copy_file, make_dir_root_file]
    | none =>
      have hcf := copy_file_root_clears (lookupChild home ("." ++ i)) ("." ++ i) i ex none
        (Or.inl rfl)
      cases hcf2 : copy_file (lookupChild home ("." ++ i)) ("." ++ i) (some (.dir [])) [i] ex with
      | mk st2 out =>
        cases out with
        | ok u => simp [dotfilesLoop, mainDotfilesLoop, make_dir_root_none, hcf, hcf2, ih]
        | error e => simp [dotfilesLoop, mainDotfilesLoop, make_dir_root_none, hcf, hcf2]
    | some (.dir cs) =>
      have hcf := copy_file_root_clears (lookupChild home ("." ++ i)) ("." ++ i) i ex
        (some (.dir cs)) (Or.inr ⟨cs, rfl⟩)
      cases hcf2 : copy_file (lookupChild home ("." ++ i)) ("." ++ i) (some (.dir [])) [i] ex with
      | mk st2 out =>
        cases out with
        | ok u => simp [dotfilesLoop, mainDotfilesLoop, make_dir_root_dir, hcf, hcf2, ih]
        | error e => simp [dotfilesLoop, mainDotfilesLoop, make_dir_root_dir, hcf, hcf2]

/-- C10 counterexample: with `dotfolders: ["a"]` (and both other keys
present), `main`'s inline loops successfully copy the folder while `backup`
leaves an empty `output/a` and raises `FileExistsError` — a different tree
and a different outcome. -/
theorem C10_counterexample :
    mainLoops [(".a", .dir [("f", .file "1")])] ⟨some [], some ["a"], some []⟩
        (some (.dir [])) =
      (some (.dir [("a", .dir [("f", .file "1")])]), .ok ()) ∧
      backup [(".a", .dir [("f", .file "1")])] ⟨some [], some ["a"], some []⟩
        (some (.dir [])) =
      (some (.dir [("a", .dir [])]), .error .fileExistsError) :=
  ⟨by simp [mainLoops, mainDotfilesLoop, mainDotfoldersLoop, copy_dir, copytree, placeAux,
      filterChildren, ignoreMatches, lookupChild, setChild], rfl⟩

/-- C10 (amended): `main`'s inline dotfile loop is equivalent to `backup`
(same destination tree and same outcome, for every destination state) when
the configuration has all three keys and an empty `dotfolders` list; the
dotfolder loops are not equivalent — `backup`'s extra `make_dir(dst)` makes
every non-excluded dotfolder copy fail and leaves an empty directory for
excluded ones. -/
theorem C10_main_loops_eq_backup (home : List (String × FSNode)) (fs ex : List String)
    (st : St) :
    mainLoops home ⟨some fs, some [], some ex⟩ st =
      backup home ⟨some fs, some [], some ex⟩ st := by
  have hloop := dotfilesLoop_eq_main home ex fs st
  cases hdl : dotfilesLoop home (some ex) fs st with
  | mk st1 out =>
    cases out with
    | ok u =>
      simp [mainLoops, backup, backupBody, hdl, ← hloop, dotfoldersLoop, mainDotfoldersLoop]
    | error e =>
      have hne := dotfilesLoop_no_keyError home ex fs st st1 e hdl
      cases e with
      | keyError => exact absurd rfl hne
      | fileExistsError =>
        simp [mainLoops, backup, backupBody, hdl, ← hloop]
      | fileNotFoundError =>
        simp [mainLoops, backup, backupBody, hdl, ← hloop]
      | notADirectoryError =>
        simp [mainLoops, backup, backupBody, hdl, ← hloop]
      | isADirectoryError =>
        simp [mainLoops, backup, backupBody, hdl, ← hloop]

/-! ### Idempotence of `backup` (claim C6)

Association lists represent unordered directories, so "identical destination
tree" is extensional equality of the lookups; the touched children are always
literally equal, so a root-level extensional equality with literal subtree
equality is the right notion. -/

theorem stEquiv_refl : ∀ st : St, stEquiv st st
  | none => trivial
  | some (.file _) => rfl
  | some (.dir _) => fun _ => rfl

theorem stEquiv_trans : ∀ {a b c : St}, stEquiv a b → stEquiv b c → stEquiv a c := by
  intro a b c hab hbc
  match a, b, c with
  | none, none, none => trivial
  | some (.file x), some (.file y), some (.file z) => exact hab.trans hbc
  | some (.dir x), some (.dir y), some (.dir z) => exact fun k => (hab k).trans (hbc k)
  | none, some (.file _), _ => exact hab.elim
  | none, some (.dir _), _ => exact hab.elim
  | some (.file _), none, _ => exact hab.elim
  | some (.file _), some (.dir _), _ => exact hab.elim
  | some (.dir _), none, _ => exact hab.elim
  | some (.dir _), some (.file _), _ => exact hab.elim
  | none, none, some (.file _) => exact hbc.elim
  | none, none, some (.dir _) => exact hbc.elim
  | some (.file _), some (.file _), none => exact hbc.elim
  | some (.file _), some (.file _), some (.dir _) => exact hbc.elim
  | some (.dir _), some (.dir _), none => exact hbc.elim
  | some (.dir _), some (.dir _), some (.file _) => exact hbc.elim

theorem lookup_opd (cs : List (String × FSNode)) (j k : String) :
    lookupChild (opd cs j) k = if k = j then some (.dir []) else lookupChild cs k := by
  by_cases hk : k = j
  · subst hk; rw [lookup_opd_self, if_pos rfl]
  · rw [lookup_opd_other cs j k hk, if_neg hk]

theorem opd_idem_lookup (cs : List (String × FSNode)) (j k : String) :
    lookupChild (opd (opd cs j) j) k = lookupChild (opd cs j) k := by
  by_cases hk : k = j
  · subst hk; rw [lookup_opd_self, lookup_opd_self]
  · rw [lookup_opd_other _ _ _ hk, lookup_opd_other _ _ _ hk]

theorem make_dir_child_rootfile (c j : String) :
    make_dir (some (.file c)) [j] = (some (.file c), .error .notADirectoryError) := rfl

theorem copy_dir_dst_err (src : Option FSNode) (sn : String) (cs : List (String × FSNode))
    (j : String) (ex : List String) (hin : sn ∉ ex) (d : FSNode)
    (hdst : lookupChild cs j = some d) :
    copy_dir src sn (some (.dir cs)) [j] ex = (some (.dir cs), .error (srcErr src)) := by
  match src with
  | none => simp [copy_dir, copytree, hin, srcErr]
  | some (.file c) => simp [copy_dir, copytree, hin, srcErr]
  | some (.dir scs) =>
    have hpl : placeAux (some (.dir cs)) [j] (.dir (filterChildren ex scs)) =
        .error .fileExistsError := by
      match d, hdst with
      | .file c0, hdst => simp [placeAux, hdst]
      | .dir d0, hdst => simp [placeAux, hdst]
    simp [copy_dir, copytree, hin, srcErr, hpl]

/-- Once a dotfolder loop starts from a directory root, the root stays a
directory, and any child which is an empty directory stays an empty
directory (the loop only recreates children as empty directories and never
writes inside them). -/
theorem dotfoldersLoop_preserves (home : List (String × FSNode)) (excl : Option (List String)) :
    ∀ (js : List String) (cs : List (String × FSNode)),
      ∃ cs2, (dotfoldersLoop home excl js (some (.dir cs))).1 = some (.dir cs2) ∧
        ∀ j, lookupChild cs j = some (.dir []) → lookupChild cs2 j = some (.dir []) := by
  intro js
  induction js with
  | nil => intro cs; exact ⟨cs, rfl, fun _ h => h⟩
  | cons j rest ih =>
    intro cs
    by_cases hf : ∃ c0, lookupChild cs j = some (.file c0)
    · obtain ⟨c0, hc0⟩ := hf
      rw [dotfoldersLoop, make_dir_child_file cs j c0 hc0]
      exact ⟨cs, rfl, fun _ h => h⟩
    · push_neg at hf
      have hmd := make_dir_child_ok cs j hf
      have hpres : ∀ k, lookupChild cs k = some (.dir []) →
          lookupChild (opd cs j) k = some (.dir []) := by
        intro k hk
        rw [lookup_opd]
        by_cases hkj : k = j
        · rw [if_pos hkj]
        · rw [if_neg hkj]; exact hk
      match excl with
      | none =>
        rw [dotfoldersLoop, hmd]
        exact ⟨opd cs j, rfl, hpres⟩
      | some ex =>
        by_cases hin : ("." ++ j) ∈ ex
        · have hr : dotfoldersLoop home (some ex) (j :: rest) (some (.dir cs)) =
              dotfoldersLoop home (some ex) rest (some (.dir (opd cs j))) := by
            rw [dotfoldersLoop, hmd]
            simp [copy_dir, hin]
          rw [hr]
          obtain ⟨cs2, h1, h2⟩ := ih (opd cs j)
          exact ⟨cs2, h1, fun k hk => h2 k (hpres k hk)⟩
        · have hcd := copy_dir_dst_err (lookupChild home ("." ++ j)) ("." ++ j) (opd cs j) j ex
            hin (.dir []) (lookup_opd_self cs j)
          have hr : dotfoldersLoop home (some ex) (j :: rest) (some (.dir cs)) =
              (some (.dir (opd cs j)), .error (srcErr (lookupChild home ("." ++ j)))) := by
            rw [dotfoldersLoop, hmd]
            simp [hcd]
          rw [hr]
          exact ⟨opd cs j, rfl, hpres⟩

theorem opd_cong (cs cs' : List (String × FSNode)) (j : String)
    (h : ∀ k, lookupChild cs k = lookupChild cs' k) :
    ∀ k, lookupChild (opd cs j) k = lookupChild (opd cs' j) k := by
  intro k
  rw [lookup_opd, lookup_opd]
  by_cases hk : k = j
  · rw [if_pos hk, if_pos hk]
  · rw [if_neg hk, if_neg hk, h k]

/-- The dotfolders loop is a congruence for `stEquiv`: equivalent input
states give equivalent output states and the same outcome. -/
theorem dotfoldersLoop_cong (home : List (String × FSNode)) (excl : Option (List String)) :
    ∀ (js : List String) (st st' : St), stEquiv st st' →
      stEquiv (dotfoldersLoop home excl js st).1 (dotfoldersLoop home excl js st').1 ∧
        (dotfoldersLoop home excl js st).2 = (dotfoldersLoop home excl js st').2 := by
  intro js
  induction js with
  | nil => intro st st' h; exact ⟨h, rfl⟩
  | cons j rest ih =>
    intro st st' h
    match st, st' with
    | none, none => exact ⟨stEquiv_refl _, rfl⟩
    | some (.file c), some (.file c') =>
      have hc : c = c' := h
      subst hc
      exact ⟨stEquiv_refl _, rfl⟩
    | none, some (.file _) => exact h.elim
    | none, some (.dir _) => exact h.elim
    | some (.file _), none => exact h.elim
    | some (.file _), some (.dir _) => exact h.elim
    | some (.dir _), none => exact h.elim
    | some (.dir _), some (.file _) => exact h.elim
    | some (.dir cs), some (.dir cs') =>
      have hlk : ∀ k, lookupChild cs k = lookupChild cs' k := h
      by_cases hf : ∃ c0, lookupChild cs j = some (.file c0)
      · obtain ⟨c0, hc0⟩ := hf
        have hc0' : lookupChild cs' j = some (.file c0) := by rw [← hlk j]; exact hc0
        rw [dotfoldersLoop, make_dir_child_file cs j c0 hc0,
          dotfoldersLoop, make_dir_child_file cs' j c0 hc0']
        exact ⟨hlk, rfl⟩
      · push_neg at hf
        have hf' : ∀ c0, lookupChild cs' j ≠ some (.file c0) := by
          intro c0; rw [← hlk j]; exact hf c0
        have hmd := make_dir_child_ok cs j hf
        have hmd' := make_dir_child_ok cs' j hf'
        have hopd := opd_cong cs cs' j hlk
        match excl with
        | none =>
          rw [dotfoldersLoop, hmd, dotfoldersLoop, hmd']
          exact ⟨hopd, rfl⟩
        | some ex =>
          by_cases hin : ("." ++ j) ∈ ex
          · have hr : dotfoldersLoop home (some ex) (j :: rest) (some (.dir cs)) =
                dotfoldersLoop home (some ex) rest (some (.dir (opd cs j))) := by
              rw [dotfoldersLoop, hmd]; simp [copy_dir, hin]
            have hr' : dotfoldersLoop home (some ex) (j :: rest) (some (.dir cs')) =
                dotfoldersLoop home (some ex) rest (some (.dir (opd cs' j))) := by
              rw [dotfoldersLoop, hmd']; simp [copy_dir, hin]
            rw [hr, hr']
            exact ih (some (.dir (opd cs j))) (some (.dir (opd cs' j))) hopd
          · have hcd := copy_dir_dst_err (lookupChild home ("." ++ j)) ("." ++ j) (opd cs j) j
              ex hin (.dir []) (lookup_opd_self cs j)
            have hcd' := copy_dir_dst_err (lookupChild home ("." ++ j)) ("." ++ j) (opd cs' j) j
              ex hin (.dir []) (lookup_opd_self cs' j)
            have hr : dotfoldersLoop home (some ex) (j :: rest) (some (.dir cs)) =
                (some (.dir (opd cs j)), .error (srcErr (lookupChild home ("." ++ j)))) := by
              rw [dotfoldersLoop, hmd]; simp [hcd]
            have hr' : dotfoldersLoop home (some ex) (j :: rest) (some (.dir cs')) =
                (some (.dir (opd cs' j)), .error (srcErr (lookupChild home ("." ++ j)))) := by
              rw [dotfoldersLoop, hmd']; simp [hcd']
            rw [hr, hr']
            exact ⟨hopd, rfl⟩

theorem dotfoldersLoop_idem_core (home : List (String × FSNode)) (excl : Option (List String))
    (j : String) (rest : List String)
    (ih : ∀ st : St, stEquiv
      (dotfoldersLoop home excl rest (dotfoldersLoop home excl rest st).1).1
      (dotfoldersLoop home excl rest st).1)
    (st : St) (cs : List (String × FSNode))
    (hmd : make_dir st [j] = (some (.dir (opd cs j)), .ok ())) :
    stEquiv (dotfoldersLoop home excl (j :: rest)
        (dotfoldersLoop home excl (j :: rest) st).1).1
      (dotfoldersLoop home excl (j :: rest) st).1 := by
  have hnf1 : ∀ c0, lookupChild (opd cs j) j ≠ some (.file c0) := by
    intro c0 hc
    rw [lookup_opd_self] at hc
    simp at hc
  have hmd2 := make_dir_child_ok (opd cs j) j hnf1
  match excl with
  | none =>
    have hr : dotfoldersLoop home none (j :: rest) st =
        (some (.dir (opd cs j)), .error .keyError) := by
      rw [dotfoldersLoop, hmd]
    have hr2 : dotfoldersLoop home none (j :: rest) (some (.dir (opd cs j))) =
        (some (.dir (opd (opd cs j) j)), .error .keyError) := by
      rw [dotfoldersLoop, hmd2]
    rw [hr]
    rw [show ((some (.dir (opd cs j)), Except.error PyError.keyError) :
      St × Except PyError Unit).1 = some (.dir (opd cs j)) from rfl]
    rw [hr2]
    exact fun k => opd_idem_lookup cs j k
  | some ex =>
    by_cases hin : ("." ++ j) ∈ ex
    · have hr : dotfoldersLoop home (some ex) (j :: rest) st =
          dotfoldersLoop home (some ex) rest (some (.dir (opd cs j))) := by
        rw [dotfoldersLoop, hmd]; simp [copy_dir, hin]
      rw [hr]
      obtain ⟨cs2, hcs2, hpres⟩ := dotfoldersLoop_preserves home (some ex) rest (opd cs j)
      have hj2 : lookupChild cs2 j = some (.dir []) := hpres j (lookup_opd_self cs j)
      rw [hcs2]
      have hnf2 : ∀ c0, lookupChild cs2 j ≠ some (.file c0) := by
        intro c0 hc
        rw [hj2] at hc
        simp at hc
      have hr2 : dotfoldersLoop home (some ex) (j :: rest) (some (.dir cs2)) =
          dotfoldersLoop home (some ex) rest (some (.dir (opd cs2 j))) := by
        rw [dotfoldersLoop, make_dir_child_ok cs2 j hnf2]; simp [copy_dir, hin]
      rw [hr2]
      have hequiv : stEquiv (some (.dir (opd cs2 j))) (some (.dir cs2)) := by
        intro k
        rw [lookup_opd]
        by_cases hk : k = j
        · rw [if_pos hk, hk, hj2]
        · rw [if_neg hk]
      have hcong := (dotfoldersLoop_cong home (some ex) rest _ _ hequiv).1
      have hih := ih (some (.dir (opd cs j)))
      rw [hcs2] at hih
      exact stEquiv_trans hcong hih
    · have hcd := copy_dir_dst_err (lookupChild home ("." ++ j)) ("." ++ j) (opd cs j) j ex
        hin (.dir []) (lookup_opd_self cs j)
      have hcd2 := copy_dir_dst_err (lookupChild home ("." ++ j)) ("." ++ j) (opd (opd cs j) j)
        j ex hin (.dir []) (lookup_opd_self (opd cs j) j)
      have hr : dotfoldersLoop home (some ex) (j :: rest) st =
          (some (.dir (opd cs j)), .error (srcErr (lookupChild home ("." ++ j)))) := by
        rw [dotfoldersLoop, hmd]; simp [hcd]
      have hr2 : dotfoldersLoop home (some ex) (j :: rest) (some (.dir (opd cs j))) =
          (some (.dir (opd (opd cs j) j)),
            .error (srcErr (lookupChild home ("." ++ j)))) := by
        rw [dotfoldersLoop, hmd2]; simp [hcd2]
      rw [hr]
      rw [show ((some (.dir (opd cs j)),
        Except.error (srcErr (lookupChild home ("." ++ j)))) : St × Except PyError Unit).1 =
        some (.dir (opd cs j)) from rfl]
      rw [hr2]
      exact fun k => opd_idem_lookup cs j k

/-- Running the dotfolders loop a second time from the state it produced
yields an equivalent state. -/
theorem dotfoldersLoop_idem (home : List (String × FSNode)) (excl : Option (List String)) :
    ∀ (js : List String) (st : St),
      stEquiv (dotfoldersLoop home excl js (dotfoldersLoop home excl js st).1).1
        (dotfoldersLoop home excl js st).1 := by
  intro js
  induction js with
  | nil => intro st; exact stEquiv_refl st
  | cons j rest ih =>
    intro st
    match st with
    | none =>
      exact dotfoldersLoop_idem_core home excl j rest ih none [] (make_dir_child_none j)
    | some (.file c) =>
      have hr : dotfoldersLoop home excl (j :: rest) (some (.file c)) =
          (some (.file c), .error .notADirectoryError) := by
        rw [dotfoldersLoop, make_dir_child_rootfile]
      rw [hr]
      rw [show ((some (.file c), Except.error PyError.notADirectoryError) :
        St × Except PyError Unit).1 = some (.file c) from rfl]
      rw [hr]
      exact stEquiv_refl _
    | some (.dir cs) =>
      by_cases hf : ∃ c0, lookupChild cs j = some (.file c0)
      · obtain ⟨c0, hc0⟩ := hf
        have hr : dotfoldersLoop home excl (j :: rest) (some (.dir cs)) =
            (some (.dir cs), .error .notADirectoryError) := by
          rw [dotfoldersLoop, make_dir_child_file cs j c0 hc0]
        rw [hr]
        rw [show ((some (.dir cs), Except.error PyError.notADirectoryError) :
          St × Except PyError Unit).1 = some (.dir cs) from rfl]
        rw [hr]
        exact stEquiv_refl _
      · push_neg at hf
        exact dotfoldersLoop_idem_core home excl j rest ih (some (.dir cs)) cs
          (make_dir_child_ok cs j hf)

theorem copy2_pres_root (src : Option FSNode) (st : St) (dst : List String)
    (h : rootDirOr st) : rootDirOr (copy2 src st dst).1 := by
  unfold copy2
  match src with
  | none => exact h
  | some (.dir d) => exact h
  | some (.file c) =>
    match st, dst with
    | none, _ => exact h
    | some (.file cc), _ => exact h
    | some (.dir cs), [] => exact h
    | some (.dir cs), d0 :: ds =>
      cases hw : writeInto cs (d0 :: ds) (.file c) with
      | ok cs' => simp [hw]; exact Or.inr ⟨cs', rfl⟩
      | error e => simp [hw]; exact Or.inr ⟨cs, rfl⟩

theorem copy_file_pres_root (src : Option FSNode) (sn : String) (st : St) (i : String)
    (ex : List String) (h : rootDirOr st) : rootDirOr (copy_file src sn st [i] ex).1 := by
  have hmd := make_dir_root st h
  have hdl : ([i] : List String).dropLast = [] := rfl
  unfold copy_file
  rw [hdl, hmd]
  by_cases hin : sn ∈ ex
  · simp [hin]
    exact Or.inr ⟨[], rfl⟩
  · simp [hin]
    exact copy2_pres_root src (some (.dir [])) [i] (Or.inr ⟨[], rfl⟩)

theorem dotfilesLoop_pres_root (home : List (String × FSNode)) (excl : Option (List String)) :
    ∀ (fs : List String) (st : St), rootDirOr st →
      rootDirOr (dotfilesLoop home excl fs st).1 := by
  intro fs
  induction fs with
  | nil => intro st h; exact h
  | cons i rest ih =>
    intro st h
    have hmd := make_dir_root st h
    rw [dotfilesLoop, hmd]
    match excl with
    | none => exact Or.inr ⟨[], rfl⟩
    | some ex =>
      have hpres := copy_file_pres_root (lookupChild home ("." ++ i)) ("." ++ i)
        (some (.dir [])) i ex (Or.inr ⟨[], rfl⟩)
      cases hcf : copy_file (lookupChild home ("." ++ i)) ("." ++ i) (some (.dir [])) [i] ex with
      | mk s2 out =>
        rw [hcf] at hpres
        cases out with
        | ok u =>
          simp only [hcf]
          exact ih s2 hpres
        | error e =>
          simp only [hcf]
          exact hpres

theorem dotfoldersLoop_pres_root (home : List (String × FSNode)) (excl : Option (List String)) :
    ∀ (js : List String) (st : St), rootDirOr st →
      rootDirOr (dotfoldersLoop home excl js st).1 := by
  intro js
  induction js with
  | nil => intro st h; exact h
  | cons j rest ih =>
    intro st h
    rcases h with h | ⟨cs, h⟩ <;> subst h
    · rw [dotfoldersLoop, make_dir_child_none j]
      match excl with
      | none => exact Or.inr ⟨_, rfl⟩
      | some ex =>
        by_cases hin : ("." ++ j) ∈ ex
        · have hcd : copy_dir (lookupChild home ("." ++ j)) ("." ++ j)
              (some (.dir (opd [] j))) [j] ex = (some (.dir (opd [] j)), .ok ()) := by
            simp [copy_dir, hin]
          simp only [hcd]
          exact ih (some (.dir (opd [] j))) (Or.inr ⟨_, rfl⟩)
        · have hcd := copy_dir_dst_err (lookupChild home ("." ++ j)) ("." ++ j) (opd [] j) j
            ex hin (.dir []) (lookup_opd_self [] j)
          simp only [hcd]
          exact Or.inr ⟨_, rfl⟩
    · by_cases hf : ∃ c0, lookupChild cs j = some (.file c0)
      · obtain ⟨c0, hc0⟩ := hf
        rw [dotfoldersLoop, make_dir_child_file cs j c0 hc0]
        exact Or.inr ⟨cs, rfl⟩
      · push_neg at hf
        rw [dotfoldersLoop, make_dir_child_ok cs j hf]
        match excl with
        | none => exact Or.inr ⟨_, rfl⟩
        | some ex =>
          by_cases hin : ("." ++ j) ∈ ex
          · have hcd : copy_dir (lookupChild home ("." ++ j)) ("." ++ j)
                (some (.dir (opd cs j))) [j] ex = (some (.dir (opd cs j)), .ok ()) := by
              simp [copy_dir, hin]
            simp only [hcd]
            exact ih (some (.dir (opd cs j))) (Or.inr ⟨_, rfl⟩)
          · have hcd := copy_dir_dst_err (lookupChild home ("." ++ j)) ("." ++ j) (opd cs j) j
              ex hin (.dir []) (lookup_opd_self cs j)
            simp only [hcd]
            exact Or.inr ⟨_, rfl⟩

theorem backup_state_eq_body (home : List (String × FSNode)) (cfg : Config) (st : St) :
    (backup home cfg st).1 = (backupBody home cfg st).1 := by
  unfold backup
  cases hb : backupBody home cfg st with
  | mk s1 out =>
    cases out with
    | ok u => rfl
    | error e => cases e <;> rfl

theorem backupBody_pres_root (home : List (String × FSNode)) (cfg : Config) (st : St)
    (h : rootDirOr st) : rootDirOr (backupBody home cfg st).1 := by
  unfold backupBody
  match hdf : cfg.dotfiles with
  | none => exact h
  | some fs =>
    cases hdlf : dotfilesLoop home cfg.exclude fs st with
    | mk s1 out =>
      have hdl : rootDirOr s1 := by
        have hx := dotfilesLoop_pres_root home cfg.exclude fs st h
        rw [hdlf] at hx
        exact hx
      simp only [hdlf]
      cases out with
      | error e => exact hdl
      | ok u =>
        match hdd : cfg.dotfolders with
        | none => exact hdl
        | some js =>
          cases hdff : dotfoldersLoop home cfg.exclude js s1 with
          | mk s2 out2 =>
            have hdl2 : rootDirOr s2 := by
              have hx := dotfoldersLoop_pres_root home cfg.exclude js s1 hdl
              rw [hdff] at hx
              exact hx
            simp only [hdff]
            exact hdl2

theorem backup_pres_root (home : List (String × FSNode)) (cfg : Config) (st : St)
    (h : rootDirOr st) : rootDirOr (backup home cfg st).1 := by
  rw [backup_state_eq_body]
  exact backupBody_pres_root home cfg st h

theorem dotfilesLoop_const (home : List (String × FSNode)) (excl : Option (List String))
    (i : String) (fs : List String) (s s' : St) (hs : rootDirOr s) (hs' : rootDirOr s') :
    dotfilesLoop home excl (i :: fs) s = dotfilesLoop home excl (i :: fs) s' := by
  rw [dotfilesLoop, dotfilesLoop, make_dir_root s hs, make_dir_root s' hs']

theorem backup_const_dotfiles (home : List (String × FSNode)) (cfg : Config) (i : String)
    (fs : List String) (hdf : cfg.dotfiles = some (i :: fs)) (s s' : St)
    (hs : rootDirOr s) (hs' : rootDirOr s') :
    backup home cfg s = backup home cfg s' := by
  unfold backup backupBody
  rw [hdf]
  simp only [dotfilesLoop_const home cfg.exclude i fs s s' hs hs']

/-- C6: `backup` is idempotent under overwrite — for every configuration,
home-directory state and initial destination state, running it a second time
from the state the first run produced yields the same destination tree
(extensionally, at every path) as the single run. -/
theorem C6_backup_idempotent (home : List (String × FSNode)) (cfg : Config) (st : St) :
    stEquiv (backup home cfg (backup home cfg st).1).1 (backup home cfg st).1 := by
  match hdf : cfg.dotfiles with
  | none =>
    have hb : ∀ s : St, backup home cfg s = (s, .ok ()) := by
      intro s
      unfold backup backupBody
      rw [hdf]
    simp only [hb]
    exact stEquiv_refl st
  | some [] =>
    match hdd : cfg.dotfolders with
    | none =>
      have hb : ∀ s : St, backup home cfg s = (s, .ok ()) := by
        intro s
        unfold backup backupBody
        rw [hdf, hdd]
        rfl
      simp only [hb]
      exact stEquiv_refl st
    | some js =>
      have hb : ∀ s : St, (backup home cfg s).1 = (dotfoldersLoop home cfg.exclude js s).1 := by
        intro s
        unfold backup backupBody
        rw [hdf, hdd]
        cases hr : dotfoldersLoop home cfg.exclude js s with
        | mk s1 out =>
          simp only [dotfilesLoop, hr]
          cases out with
          | ok u => rfl
          | error e => cases e <;> rfl
      simp only [hb]
      exact dotfoldersLoop_idem home cfg.exclude js st
  | some (i :: fs) =>
    match st with
    | some (.file c) =>
      have hloop : dotfilesLoop home cfg.exclude (i :: fs) (some (.file c)) =
          (some (.file c), .error .notADirectoryError) := by
        rw [dotfilesLoop, make_dir_root_file]
      have hb : backup home cfg (some (.file c)) =
          (some (.file c), .error .notADirectoryError) := by
        unfold backup backupBody
        rw [hdf]
        simp only [hloop]
      simp only [hb]
      exact stEquiv_refl _
    | none =>
      have hpres := backup_pres_root home cfg none (Or.inl rfl)
      have hconst := backup_const_dotfiles home cfg i fs hdf (backup home cfg none).1 none
        hpres (Or.inl rfl)
      rw [hconst]
      exact stEquiv_refl _
    | some (.dir cs) =>
      have hpres := backup_pres_root home cfg (some (.dir cs)) (Or.inr ⟨cs, rfl⟩)
      have hconst := backup_const_dotfiles home cfg i fs hdf
        (backup home cfg (some (.dir cs))).1 (some (.dir cs)) hpres (Or.inr ⟨cs, rfl⟩)
      rw [hconst]
      exact stEquiv_refl _
